import Mathlib

/-!
Verification of two backend-plugin components:
 * `ArmPlugin::pass::ConvertLayout` (convert_layout.cpp): a graph-rewrite pass
   that inserts layout transpositions around `ArmConvolution` nodes.
 * `CUDAPlugin::RNN::Details` (gru_sequence_cudnn_components.cpp): the
   descriptor-management layer for the cuDNN GRU primitive.

The C++ is shallowly embedded: graph nodes become an inductive expression
type, fallible code returns `Except`, device uploads become explicit lists
of upload actions, and device pointers become natural-number addresses.
-/

namespace ArmPlugin

/-- `static std::vector<int> nchw_to_nhwc{0, 2, 3, 1};` -/
def nchw_to_nhwc : List Int := [0, 2, 3, 1]

/-- `static std::vector<int> nhwc_to_nchw{0, 3, 1, 2};` -/
def nhwc_to_nchw : List Int := [0, 3, 1, 2]

/-- `static std::vector<int> ncdhw_to_ndhwc{0, 2, 3, 4, 1};` -/
def ncdhw_to_ndhwc : List Int := [0, 2, 3, 4, 1]

/-- `static std::vector<int> ndhwc_to_ncdhw{0, 4, 1, 2, 3};` -/
def ndhwc_to_ncdhw : List Int := [0, 4, 1, 2, 3]

/-- Auto-pad attribute of a convolution (opaque to the rewrite). -/
inductive AutoPad where
  | explicitPad
  | sameUpper
  | sameLower
  | validPad
deriving DecidableEq, Repr

/-- Graph nodes relevant to the `ConvertLayout` rewrite.  `input` stands for
an arbitrary producer output (`Output<Node>`); `constant` is an `i32`
constant holding a permutation; `transpose` is `opset::Transpose`;
`armConv` is `opset::ArmConvolution` with its attributes. -/
inductive NodeE where
  | input (id : Nat)
  | constant (vals : List Int)
  | transpose (arg : NodeE) (perm : NodeE)
  | armConv (inputs : List NodeE) (strides pads_begin pads_end dilations : List Nat)
      (auto_pad : AutoPad) (friendly_name : String)

/-- `transpose_on_input`: builds a Transpose of `input` by the NCHW→NHWC
permutation for rank 4, the NCDHW→NDHWC permutation for rank 5, and throws
(`IE_THROW`) otherwise. -/
def transpose_on_input (input : NodeE) (rank : Nat) : Except String NodeE :=
  match rank with
  | 4 => .ok (.transpose input (.constant nchw_to_nhwc))
  | 5 => .ok (.transpose input (.constant ncdhw_to_ndhwc))
  | _ => .error "ConvertLayout: unsupported rank"

/-- `transpose_on_output`: builds a Transpose of `input` by the NHWC→NCHW
permutation for rank 4, the NDHWC→NCDHW permutation for rank 5, and throws
otherwise. -/
def transpose_on_output (input : NodeE) (rank : Nat) : Except String NodeE :=
  match rank with
  | 4 => .ok (.transpose input (.constant nhwc_to_nchw))
  | 5 => .ok (.transpose input (.constant ndhwc_to_ncdhw))
  | _ => .error "ConvertLayout: unsupported rank"

/-- An `opset::ArmConvolution` node as matched by the pass: its input
values, attributes, friendly name and the (statically known) rank of its
output partial shape. -/
structure ArmConvolution where
  inputs : List NodeE
  strides : List Nat
  pads_begin : List Nat
  pads_end : List Nat
  dilations : List Nat
  auto_pad : AutoPad
  friendly_name : String
  output_rank : Nat

/-- `conv->input_value(i)` (the matched convolution always has at least two
inputs; a default is supplied to keep the embedding total). -/
def ArmConvolution.input_value (conv : ArmConvolution) (i : Nat) : NodeE :=
  conv.inputs.getD i (.input 0)

/-- The callback of `ConvertArmConvolutionLayout`, restricted to a matched
`ArmConvolution` node.  It returns the node that replaces the convolution
(the output-side Transpose feeding the consumers), or the exception text
when `transpose_on_input` / `transpose_on_output` throws. -/
def ConvertArmConvolutionLayout (conv : ArmConvolution) : Except String NodeE := do
  let rank := conv.output_rank
  let activations_transpose ← transpose_on_input (conv.input_value 0) rank
  let weights_transpose ← transpose_on_input (conv.input_value 1) rank
  let new_conv : NodeE :=
    if conv.inputs.length > 2 then
      .armConv [activations_transpose, weights_transpose, conv.input_value 2]
        conv.strides conv.pads_begin conv.pads_end conv.dilations conv.auto_pad
        conv.friendly_name
    else
      .armConv [activations_transpose, weights_transpose]
        conv.strides conv.pads_begin conv.pads_end conv.dilations conv.auto_pad
        conv.friendly_name
  transpose_on_output new_conv rank

/-- Composition of transpose permutations: transposing by `p` and then the
result by `q` is the single transpose by `fun i => p[q[i]]`. -/
def composePerm (p q : List Int) : List Int :=
  q.map (fun i => p.getD i.toNat 0)

/-- The identity permutation on `rank` axes. -/
def idPerm (rank : Nat) : List Int :=
  (List.range rank).map (fun i => (i : Int))

/-- Semantics of a Transpose node on an axis-indexed list (a shape or a
layout): axis `i` of the output is axis `p[i]` of the input. -/
def applyPerm (p : List Int) (xs : List Nat) : List Nat :=
  p.map (fun i => xs.getD i.toNat 0)

/-- For a rank other than 4 and 5, `transpose_on_input` throws. -/
theorem transpose_on_input_error (x : NodeE) (rank : Nat) (h4 : rank ≠ 4) (h5 : rank ≠ 5) :
    transpose_on_input x rank = .error "ConvertLayout: unsupported rank" := by
  match rank, h4, h5 with
  | 0, _, _ => rfl
  | 1, _, _ => rfl
  | 2, _, _ => rfl
  | 3, _, _ => rfl
  | 4, h4, _ => exact absurd rfl h4
  | 5, _, h5 => exact absurd rfl h5
  | (n + 6), _, _ => rfl

/-- For a rank other than 4 and 5, `transpose_on_output` throws. -/
theorem transpose_on_output_error (x : NodeE) (rank : Nat) (h4 : rank ≠ 4) (h5 : rank ≠ 5) :
    transpose_on_output x rank = .error "ConvertLayout: unsupported rank" := by
  match rank, h4, h5 with
  | 0, _, _ => rfl
  | 1, _, _ => rfl
  | 2, _, _ => rfl
  | 3, _, _ => rfl
  | 4, h4, _ => exact absurd rfl h4
  | 5, _, h5 => exact absurd rfl h5
  | (n + 6), _, _ => rfl

/-- C2: a matched `ArmConvolution` of static rank 4 or 5 is replaced by a
new `ArmConvolution` whose first two inputs are wrapped in Transposes by
the rank-appropriate NCHW→NHWC / NCDHW→NDHWC permutation, whose output
feeds a Transpose by the inverse permutation, and whose bias input, when
present, is forwarded unchanged. -/
theorem ConvertArmConvolutionLayout_rewrite (conv : ArmConvolution)
    (h : conv.output_rank = 4 ∨ conv.output_rank = 5) :
    ∃ pin pout,
      (pin = if conv.output_rank = 4 then nchw_to_nhwc else ncdhw_to_ndhwc) ∧
      (pout = if conv.output_rank = 4 then nhwc_to_nchw else ndhwc_to_ncdhw) ∧
      composePerm pin pout = idPerm conv.output_rank ∧
      ConvertArmConvolutionLayout conv =
        .ok (.transpose
          (.armConv
            (if conv.inputs.length > 2 then
              [.transpose (conv.input_value 0) (.constant pin),
               .transpose (conv.input_value 1) (.constant pin),
               conv.input_value 2]
            else
              [.transpose (conv.input_value 0) (.constant pin),
               .transpose (conv.input_value 1) (.constant pin)])
            conv.strides conv.pads_begin conv.pads_end conv.dilations conv.auto_pad
            conv.friendly_name)
          (.constant pout)) := by
  refine ⟨_, _, rfl, rfl, ?_, ?_⟩
  · rcases h with h | h <;> simp [h] <;> decide
  · rcases h with h | h <;>
      by_cases hc : conv.inputs.length > 2 <;>
      simp [ConvertArmConvolutionLayout, transpose_on_input, transpose_on_output, h, hc,
        Bind.bind, Except.bind]

/-- A concrete rank-4 convolution with two inputs, used to witness the
rewrite theorems. -/
def convEx4 : ArmConvolution :=
  { inputs := [.input 1, .input 2], strides := [1, 1], pads_begin := [0, 0],
    pads_end := [0, 0], dilations := [1, 1], auto_pad := .explicitPad,
    friendly_name := "conv", output_rank := 4 }

/-- A concrete rank-5 convolution with a bias input, used to witness the
rewrite theorems. -/
def convEx5 : ArmConvolution :=
  { inputs := [.input 1, .input 2, .input 3], strides := [1, 1, 1],
    pads_begin := [0, 0, 0], pads_end := [0, 0, 0], dilations := [1, 1, 1],
    auto_pad := .sameUpper, friendly_name := "conv3d", output_rank := 5 }

/-- Witness for C2 at the concrete rank-4 convolution. -/
theorem ConvertArmConvolutionLayout_rewrite_witness :
    ∃ pin pout,
      (pin = if convEx4.output_rank = 4 then nchw_to_nhwc else ncdhw_to_ndhwc) ∧
      (pout = if convEx4.output_rank = 4 then nhwc_to_nchw else ndhwc_to_ncdhw) ∧
      composePerm pin pout = idPerm convEx4.output_rank ∧
      ConvertArmConvolutionLayout convEx4 =
        .ok (.transpose
          (.armConv
            (if convEx4.inputs.length > 2 then
              [.transpose (convEx4.input_value 0) (.constant pin),
               .transpose (convEx4.input_value 1) (.constant pin),
               convEx4.input_value 2]
            else
              [.transpose (convEx4.input_value 0) (.constant pin),
               .transpose (convEx4.input_value 1) (.constant pin)])
            convEx4.strides convEx4.pads_begin convEx4.pads_end convEx4.dilations
            convEx4.auto_pad convEx4.friendly_name)
          (.constant pout)) :=
  ConvertArmConvolutionLayout_rewrite convEx4 (Or.inl rfl)

/-- C3: the input-side permutation composed with the output-side
permutation is the identity for both supported ranks, and applying the
output Transpose after the input Transpose restores any axis-indexed list,
so the output transposition exactly undoes the input layout change. -/
theorem transpose_perms_cancel :
    (∀ x : NodeE,
      transpose_on_input x 4 = .ok (.transpose x (.constant nchw_to_nhwc)) ∧
      transpose_on_output x 4 = .ok (.transpose x (.constant nhwc_to_nchw)) ∧
      transpose_on_input x 5 = .ok (.transpose x (.constant ncdhw_to_ndhwc)) ∧
      transpose_on_output x 5 = .ok (.transpose x (.constant ndhwc_to_ncdhw))) ∧
    composePerm nchw_to_nhwc nhwc_to_nchw = idPerm 4 ∧
    composePerm nhwc_to_nchw nchw_to_nhwc = idPerm 4 ∧
    composePerm ncdhw_to_ndhwc ndhwc_to_ncdhw = idPerm 5 ∧
    composePerm ndhwc_to_ncdhw ncdhw_to_ndhwc = idPerm 5 ∧
    (∀ xs : List Nat, xs.length = 4 →
      applyPerm nhwc_to_nchw (applyPerm nchw_to_nhwc xs) = xs) ∧
    (∀ xs : List Nat, xs.length = 5 →
      applyPerm ndhwc_to_ncdhw (applyPerm ncdhw_to_ndhwc xs) = xs) := by
  refine ⟨fun x => ⟨rfl, rfl, rfl, rfl⟩, by decide, by decide, by decide, by decide, ?_, ?_⟩
  · intro xs h
    rcases xs with _ | ⟨a, _ | ⟨b, _ | ⟨c, _ | ⟨d, _ | ⟨e, t⟩⟩⟩⟩⟩ <;>
      simp_all [applyPerm, nchw_to_nhwc, nhwc_to_nchw]
  · intro xs h
    rcases xs with _ | ⟨a, _ | ⟨b, _ | ⟨c, _ | ⟨d, _ | ⟨e, _ | ⟨f, t⟩⟩⟩⟩⟩⟩ <;>
      simp_all [applyPerm, ncdhw_to_ndhwc, ndhwc_to_ncdhw]

/-- Witness for C3 at concrete axis lists. -/
theorem transpose_perms_cancel_witness :
    applyPerm nhwc_to_nchw (applyPerm nchw_to_nhwc [7, 8, 9, 10]) = [7, 8, 9, 10] ∧
    applyPerm ndhwc_to_ncdhw (applyPerm ncdhw_to_ndhwc [1, 2, 3, 4, 5]) = [1, 2, 3, 4, 5] :=
  ⟨transpose_perms_cancel.2.2.2.2.2.1 [7, 8, 9, 10] rfl,
   transpose_perms_cancel.2.2.2.2.2.2 [1, 2, 3, 4, 5] rfl⟩

/-- C5: whenever the rewrite succeeds, the replacement convolution keeps
the original strides, pads_begin, pads_end, dilations, auto_pad and
friendly name; only the inputs and the surrounding transpositions differ. -/
theorem ConvertArmConvolutionLayout_preserves_attributes (conv : ArmConvolution) (res : NodeE)
    (h : ConvertArmConvolutionLayout conv = .ok res) :
    ∃ new_inputs pout,
      res = .transpose
        (.armConv new_inputs conv.strides conv.pads_begin conv.pads_end conv.dilations
          conv.auto_pad conv.friendly_name)
        (.constant pout) := by
  by_cases h4 : conv.output_rank = 4
  · obtain ⟨pin, pout, _, _, _, heq⟩ :=
      ConvertArmConvolutionLayout_rewrite conv (Or.inl h4)
    rw [heq] at h
    exact ⟨_, pout, (Except.ok.injEq _ _ ▸ h).symm⟩
  by_cases h5 : conv.output_rank = 5
  · obtain ⟨pin, pout, _, _, _, heq⟩ :=
      ConvertArmConvolutionLayout_rewrite conv (Or.inr h5)
    rw [heq] at h
    exact ⟨_, pout, (Except.ok.injEq _ _ ▸ h).symm⟩
  · exfalso
    simp [ConvertArmConvolutionLayout, Bind.bind, Except.bind,
      transpose_on_input_error (conv.input_value 0) conv.output_rank h4 h5] at h

/-- Witness for C5 at the concrete rank-5 convolution with bias. -/
theorem ConvertArmConvolutionLayout_preserves_attributes_witness :
    ∃ new_inputs pout,
      NodeE.transpose
        (.armConv
          [.transpose (convEx5.input_value 0) (.constant ncdhw_to_ndhwc),
           .transpose (convEx5.input_value 1) (.constant ncdhw_to_ndhwc),
           convEx5.input_value 2]
          convEx5.strides convEx5.pads_begin convEx5.pads_end convEx5.dilations
          convEx5.auto_pad convEx5.friendly_name)
        (.constant ndhwc_to_ncdhw) =
      .transpose
        (.armConv new_inputs convEx5.strides convEx5.pads_begin convEx5.pads_end
          convEx5.dilations convEx5.auto_pad convEx5.friendly_name)
        (.constant pout) :=
  ConvertArmConvolutionLayout_preserves_attributes convEx5 _ rfl

/-- C10: both transpose builders throw for every rank other than 4 and 5,
and the rewrite of a matched convolution succeeds exactly when the output
rank is 4 or 5, failing with the exception otherwise. -/
theorem ConvertArmConvolutionLayout_rank_guard (conv : ArmConvolution) (x : NodeE)
    (rank : Nat) (h4 : rank ≠ 4) (h5 : rank ≠ 5) :
    transpose_on_input x rank = .error "ConvertLayout: unsupported rank" ∧
    transpose_on_output x rank = .error "ConvertLayout: unsupported rank" ∧
    (conv.output_rank ≠ 4 → conv.output_rank ≠ 5 →
      ConvertArmConvolutionLayout conv = .error "ConvertLayout: unsupported rank") ∧
    ((∃ v, ConvertArmConvolutionLayout conv = .ok v) ↔
      (conv.output_rank = 4 ∨ conv.output_rank = 5)) := by
  refine ⟨transpose_on_input_error x rank h4 h5, transpose_on_output_error x rank h4 h5,
    ?_, ?_, ?_⟩
  · intro g4 g5
    simp [ConvertArmConvolutionLayout, Bind.bind, Except.bind,
      transpose_on_input_error (conv.input_value 0) conv.output_rank g4 g5]
  · rintro ⟨v, hv⟩
    by_cases g4 : conv.output_rank = 4
    · exact Or.inl g4
    by_cases g5 : conv.output_rank = 5
    · exact Or.inr g5
    · rw [show ConvertArmConvolutionLayout conv = .error "ConvertLayout: unsupported rank"
        from by simp [ConvertArmConvolutionLayout, Bind.bind, Except.bind,
          transpose_on_input_error (conv.input_value 0) conv.output_rank g4 g5]] at hv
      exact absurd hv (by simp)
  · intro hr
    obtain ⟨pin, pout, _, _, _, heq⟩ := ConvertArmConvolutionLayout_rewrite conv hr
    exact ⟨_, heq⟩

/-- Witness for C10 at rank 3. -/
theorem ConvertArmConvolutionLayout_rank_guard_witness :
    transpose_on_input (.input 0) 3 = .error "ConvertLayout: unsupported rank" ∧
    transpose_on_output (.input 0) 3 = .error "ConvertLayout: unsupported rank" ∧
    (convEx4.output_rank ≠ 4 → convEx4.output_rank ≠ 5 →
      ConvertArmConvolutionLayout convEx4 = .error "ConvertLayout: unsupported rank") ∧
    ((∃ v, ConvertArmConvolutionLayout convEx4 = .ok v) ↔
      (convEx4.output_rank = 4 ∨ convEx4.output_rank = 5)) :=
  ConvertArmConvolutionLayout_rank_guard convEx4 (.input 0) 3
    (by decide) (by decide)

end ArmPlugin

namespace CUDAPlugin

/-- `cudnnDataType_t` restricted to the element types reachable through
`convertDataType` (floating and small-integer tensor element types). -/
inductive cudnnDataType_t where
  | float
  | double
  | half
  | int8
  | bfloat16
deriving DecidableEq, Repr

/-- `CUDAPlugin::elementSize`: size in bytes of one element of a cuDNN
data type (helper defined outside this translation unit; standard sizes). -/
def elementSize : cudnnDataType_t → Nat
  | .float => 4
  | .double => 8
  | .half => 2
  | .int8 => 1
  | .bfloat16 => 2

/-- `ngraph::op::RecurrentSequenceDirection`. -/
inductive RecurrentSequenceDirection where
  | FORWARD
  | REVERSE
  | BIDIRECTIONAL
deriving DecidableEq, Repr

/-- `cudnnDirectionMode_t`. -/
inductive cudnnDirectionMode_t where
  | unidirectional
  | bidirectional
deriving DecidableEq, Repr

/-- The clip attribute is a 32-bit float; the constructor only asks whether
it compares equal to `0.0f` and whether `std::isinf` holds, so the value is
embedded by those two observations. -/
structure ClipValue where
  isZero : Bool
  isInf : Bool
deriving DecidableEq, Repr

/-- `static_cast<int32_t>` applied to a `size_t` value. -/
def int32_cast (n : Nat) : Int :=
  if n % 2 ^ 32 < 2 ^ 31 then ((n % 2 ^ 32 : Nat) : Int)
  else ((n % 2 ^ 32 : Nat) : Int) - 2 ^ 32

namespace RNN

/-- The fields of `CUDAPlugin::RNN::Details::GRUSequenceParams` read by this
translation unit.  The numeric sizes are `size_t`; the host weight blobs
are byte spans, embedded as byte lists.  `element_type_` is the ngraph
element type, represented here already through `convertDataType`. -/
structure GRUSequenceParams where
  element_type_ : cudnnDataType_t
  direction_ : RecurrentSequenceDirection
  activations_ : List String
  clip_ : ClipValue
  linear_before_reset_ : Bool
  batch_size_ : Nat
  max_seq_length_ : Nat
  input_size_ : Nat
  hidden_size_ : Nat
  w_host_buffers_ : List Nat
  r_host_buffers_ : List Nat
  b_host_buffers_ : List Nat

/-- Modelled from the spec: `GRUSequenceParams::lin_layer_count` is declared
in a header that is not among the sources.  The spec describes the weight
translation "between two different gate orderings" of the GRU, whose three
gate linear layers the code comments list as Z, R and H, so the constant
is 3. -/
def lin_layer_count : Nat := 3

/-- The state built by the `GRUSequenceParamsCuDnn` constructor. -/
structure GRUSequenceParamsCuDnn where
  element_type_ : cudnnDataType_t
  element_size_ : Nat
  direction_ : cudnnDirectionMode_t
  linear_before_reset_ : Bool
  batch_size_ : Int
  max_seq_length_ : Int
  input_size_ : Int
  hidden_size_ : Int
  w_host_buffers_ : List Nat
  r_host_buffers_ : List Nat
  b_host_buffers_ : List Nat
  seq_length_array_ : List Int

/-- `GRUSequenceParamsCuDnn::GRUSequenceParamsCuDnn`: the member
initialisers followed by the validation checks of the constructor body;
`throwIEException` becomes `Except.error`.  `seq_length_array_.resize`
passes the `int32_t` batch size back through `size_t`. -/
def GRUSequenceParamsCuDnn.construct (params : GRUSequenceParams) :
    Except String GRUSequenceParamsCuDnn :=
  let batch_size_ : Int := int32_cast params.batch_size_
  let max_seq_length_ : Int := int32_cast params.max_seq_length_
  let input_size_ : Int := int32_cast params.input_size_
  let hidden_size_ : Int := int32_cast params.hidden_size_
  if params.direction_ = .REVERSE then
    .error "Currently GRUSequence cuDNN implementation does not support REVERSE direction"
  else if params.direction_ = .BIDIRECTIONAL then
    .error "Currently GRUSequence cuDNN implementation does not support BIDIRECTIONAL direction"
  else if input_size_ = 1 ∧ hidden_size_ = 1 then
    .error "Currently GRUSequence cuDNN implementation does not support combination of input_size == 1 and hidden_size == 1 simultaneously"
  else if params.activations_ ≠ ["sigmoid", "tanh"] then
    .error "Currently GRUSequence cuDNN implementation supports only sigmoid, tanh"
  else if (!params.clip_.isZero) && (!params.clip_.isInf) then
    .error "Currently GRUSequence cuDNN implementation does not support clipping"
  else
    .ok { element_type_ := params.element_type_,
          element_size_ := elementSize params.element_type_,
          direction_ := .unidirectional,
          linear_before_reset_ := params.linear_before_reset_,
          batch_size_ := batch_size_,
          max_seq_length_ := max_seq_length_,
          input_size_ := input_size_,
          hidden_size_ := hidden_size_,
          w_host_buffers_ := params.w_host_buffers_,
          r_host_buffers_ := params.r_host_buffers_,
          b_host_buffers_ := params.b_host_buffers_,
          seq_length_array_ := List.replicate batch_size_.toNat max_seq_length_ }

/-- Modelled from the spec: `GRUSequenceParamsCuDnn::numDirections()` is
declared in a header that is not among the sources; a cuDNN bidirectional
RNN runs two pseudo-layers per layer, a unidirectional one runs one. -/
def GRUSequenceParamsCuDnn.numDirections (p : GRUSequenceParamsCuDnn) : Nat :=
  if p.direction_ = .bidirectional then 2 else 1

/-- Modelled from the spec: `GRUSequenceParamsCuDnn::projSize()` is declared
in a header that is not among the sources; with no recurrent projection the
cuDNN projection size equals the hidden size. -/
def GRUSequenceParamsCuDnn.projSize (p : GRUSequenceParamsCuDnn) : Int :=
  p.hidden_size_

/-- `cudnnRNNAlgo_t`. -/
inductive cudnnRNNAlgo_t where
  | standard
  | persistStatic
  | persistDynamic
deriving DecidableEq, Repr

/-- `cudnnRNNMode_t`. -/
inductive cudnnRNNMode_t where
  | rnnRelu
  | rnnTanh
  | lstm
  | gru
deriving DecidableEq, Repr

/-- `cudnnRNNBiasMode_t`. -/
inductive cudnnRNNBiasMode_t where
  | noBias
  | singleInpBias
  | doubleBias
  | singleRecBias
deriving DecidableEq, Repr

/-- `cudnnRNNInputMode_t`. -/
inductive cudnnRNNInputMode_t where
  | linearInput
  | skipInput
deriving DecidableEq, Repr

/-- `cudnnMathType_t`. -/
inductive cudnnMathType_t where
  | defaultMath
  | tensorOpMath
  | tensorOpMathAllowConversion
deriving DecidableEq, Repr

/-- `cudnnRNNDataLayout_t`. -/
inductive cudnnRNNDataLayout_t where
  | seqMajorUnpacked
  | seqMajorPacked
  | batchMajorUnpacked
deriving DecidableEq, Repr

/-- `CUDNN_RNN_PADDED_IO_ENABLED` (the only auxiliary flag the code uses). -/
def CUDNN_RNN_PADDED_IO_ENABLED : Nat := 1

/-- The operation `Config` consulted by the descriptor layer. -/
structure Config where
  rnn_data_layout : cudnnRNNDataLayout_t
deriving DecidableEq, Repr

/-- The arguments passed to `rnn_desc_.set(...)`, i.e. the configuration of
the cuDNN RNN descriptor. -/
structure cudnnRNNDescriptor_t where
  algo : cudnnRNNAlgo_t
  cellMode : cudnnRNNMode_t
  biasMode : cudnnRNNBiasMode_t
  dirMode : cudnnDirectionMode_t
  inputMode : cudnnRNNInputMode_t
  dataType : cudnnDataType_t
  mathPrec : cudnnDataType_t
  mathType : cudnnMathType_t
  inputSize : Int
  hiddenSize : Int
  projSize : Int
  numLayers : Int
  dropoutDescIsNull : Bool
  auxFlags : Nat
deriving DecidableEq, Repr

/-- `GRUSequenceDescriptorsCuDnn::createRNNDescriptor`.  The device query
`CUDA::isHalfSupported(context.device())` becomes the boolean argument
`halfSupported`. -/
def createRNNDescriptor (params_ : GRUSequenceParamsCuDnn) (config_ : Config)
    (halfSupported : Bool) : cudnnRNNDescriptor_t :=
  let rnn_algo := cudnnRNNAlgo_t.standard
  let rnn_mode := cudnnRNNMode_t.gru
  let bias_mode := if params_.linear_before_reset_ then cudnnRNNBiasMode_t.doubleBias
                   else cudnnRNNBiasMode_t.singleInpBias
  let input_mode := cudnnRNNInputMode_t.linearInput
  let can_use_half := (params_.element_type_ = .half) ∧ halfSupported = true
  let math_prec := if (params_.element_type_ = .double) ∨ can_use_half
                   then params_.element_type_ else cudnnDataType_t.float
  let numLayers : Int := 1
  let math_type := if params_.element_type_ = .double ∨ params_.element_type_ = .float
                   then cudnnMathType_t.defaultMath else cudnnMathType_t.tensorOpMath
  let aux_flags := if config_.rnn_data_layout = .seqMajorPacked then 0
                   else CUDNN_RNN_PADDED_IO_ENABLED
  { algo := rnn_algo,
    cellMode := rnn_mode,
    biasMode := bias_mode,
    dirMode := params_.direction_,
    inputMode := input_mode,
    dataType := params_.element_type_,
    mathPrec := math_prec,
    mathType := math_type,
    inputSize := params_.input_size_,
    hiddenSize := params_.hidden_size_,
    projSize := params_.projSize,
    numLayers := numLayers,
    dropoutDescIsNull := true,
    auxFlags := aux_flags }

/-- Identifies one of the per-gate device buffer arrays written by
`initWeightSpace`: the input weights `w_dev_buffers_`, the recurrence
weights `r_dev_buffers_`, the first biases `b1_dev_buffers_` or the second
biases `b2_dev_buffers_`, at device index `j`. -/
inductive WeightTarget where
  | W (j : Nat)
  | R (j : Nat)
  | B1 (j : Nat)
  | B2 (j : Nat)
deriving DecidableEq, Repr

/-- One device memory operation issued by `initWeightSpace`: an upload of
`size` bytes starting at byte offset `hostOffset` of the corresponding host
buffer (`w_host_buffers_` for `W`, `r_host_buffers_` for `R`, and
`b_host_buffers_` for both `B1` and `B2`), or a zero `memset` of `size`
bytes. -/
inductive UploadAction where
  | upload (tgt : WeightTarget) (hostOffset : Nat) (size : Nat)
  | memset0 (tgt : WeightTarget) (size : Nat)
deriving DecidableEq, Repr

/-- The gate-order translation inside the `initWeightSpace` loop:
`j = (j == 0) ? 1 : ((j == 1) ? 0 : j);`. -/
def gateSwap (i : Nat) : Nat :=
  if i = 0 then 1 else if i = 1 then 0 else i

/-- `GRUSequenceDescriptorsCuDnn::initWeightSpace`, as the sequence of
device memory operations it issues.  `b2_count` is the number of second
bias device buffers produced by `calculateWeightBuffers`
(`b2_dev_buffers_.size()`), and `b2_size j` the byte size of the `j`-th of
them (used by the `memset`). -/
def initWeightSpace (params_ : GRUSequenceParamsCuDnn) (b2_count : Nat)
    (b2_size : Nat → Nat) : List UploadAction :=
  let num_pseudo_layers := params_.numDirections
  let dev_buffers_count := lin_layer_count * num_pseudo_layers
  let w_host_buffer_size := params_.w_host_buffers_.length / dev_buffers_count
  let r_host_buffer_size := params_.r_host_buffers_.length / dev_buffers_count
  let b1_host_layer_size := params_.hidden_size_.toNat * params_.element_size_
  (List.range dev_buffers_count).flatMap (fun i =>
    let j := gateSwap i
    [UploadAction.upload (.W j) (i * w_host_buffer_size) w_host_buffer_size,
     UploadAction.upload (.B1 j) (i * b1_host_layer_size) b1_host_layer_size,
     UploadAction.upload (.R j) (i * r_host_buffer_size) r_host_buffer_size] ++
    (if i < b2_count then
      (if params_.linear_before_reset_ && (j == 2) then
        [UploadAction.upload (.B2 j) (b1_host_layer_size * (j + 1)) b1_host_layer_size]
      else
        [UploadAction.memset0 (.B2 j) (b2_size j)])
    else []))

/-- `int32_cast` is the identity on values below `2^31`. -/
theorem int32_cast_eq (n : Nat) (h : n < 2 ^ 31) : int32_cast n = (n : Int) := by
  unfold int32_cast
  rw [Nat.mod_eq_of_lt (lt_trans h (by norm_num)), if_pos h]

/-- The constructor fails exactly on one of its five rejection conditions
(in terms of the already-narrowed `int32_t` sizes). -/
theorem construct_error_iff (gp : GRUSequenceParams) :
    (∃ e, GRUSequenceParamsCuDnn.construct gp = .error e) ↔
      (gp.direction_ = .REVERSE ∨ gp.direction_ = .BIDIRECTIONAL ∨
       (int32_cast gp.input_size_ = 1 ∧ int32_cast gp.hidden_size_ = 1) ∨
       gp.activations_ ≠ ["sigmoid", "tanh"] ∨
       (gp.clip_.isZero = false ∧ gp.clip_.isInf = false)) := by
  unfold GRUSequenceParamsCuDnn.construct
  by_cases h1 : gp.direction_ = .REVERSE <;>
  by_cases h2 : gp.direction_ = .BIDIRECTIONAL <;>
  by_cases h3 : int32_cast gp.input_size_ = 1 ∧ int32_cast gp.hidden_size_ = 1 <;>
  by_cases h4 : gp.activations_ = ["sigmoid", "tanh"] <;>
  by_cases h5 : gp.clip_.isZero = false ∧ gp.clip_.isInf = false <;>
  simp [h1, h2, h3, h4, h5, Bool.and_eq_true, Bool.not_eq_true']

/-- The fields of the state produced by a successful
`GRUSequenceParamsCuDnn` construction. -/
theorem construct_ok_fields (gp : GRUSequenceParams) (p : GRUSequenceParamsCuDnn)
    (hok : GRUSequenceParamsCuDnn.construct gp = .ok p) :
    p.direction_ = .unidirectional ∧
    p.linear_before_reset_ = gp.linear_before_reset_ ∧
    p.element_type_ = gp.element_type_ ∧
    p.element_size_ = elementSize gp.element_type_ ∧
    p.seq_length_array_ =
      List.replicate (int32_cast gp.batch_size_).toNat (int32_cast gp.max_seq_length_) := by
  unfold GRUSequenceParamsCuDnn.construct at hok
  by_cases h1 : gp.direction_ = .REVERSE
  · rw [if_pos h1] at hok; exact Except.noConfusion hok
  rw [if_neg h1] at hok
  by_cases h2 : gp.direction_ = .BIDIRECTIONAL
  · rw [if_pos h2] at hok; exact Except.noConfusion hok
  rw [if_neg h2] at hok
  by_cases h3 : int32_cast gp.input_size_ = 1 ∧ int32_cast gp.hidden_size_ = 1
  · rw [if_pos h3] at hok; exact Except.noConfusion hok
  rw [if_neg h3] at hok
  by_cases h4 : gp.activations_ ≠ ["sigmoid", "tanh"]
  · rw [if_pos h4] at hok; exact Except.noConfusion hok
  rw [if_neg h4] at hok
  by_cases h5 : ((!gp.clip_.isZero) && (!gp.clip_.isInf)) = true
  · rw [if_pos h5] at hok; exact Except.noConfusion hok
  rw [if_neg h5] at hok
  cases hok
  exact ⟨rfl, rfl, rfl, rfl, rfl⟩

/-- A `GRUSequenceParams` value accepted by the constructor, used as a
concrete witness input. -/
def gruParamsEx : GRUSequenceParams :=
  { element_type_ := .float, direction_ := .FORWARD,
    activations_ := ["sigmoid", "tanh"], clip_ := { isZero := true, isInf := false },
    linear_before_reset_ := false, batch_size_ := 2, max_seq_length_ := 3,
    input_size_ := 4, hidden_size_ := 5,
    w_host_buffers_ := List.replicate 240 0, r_host_buffers_ := List.replicate 300 0,
    b_host_buffers_ := List.replicate 80 0 }

/-- A `GRUSequenceParams` value rejected by the constructor (REVERSE
direction), used as a concrete witness input. -/
def gruParamsRevEx : GRUSequenceParams :=
  { gruParamsEx with direction_ := .REVERSE }

/-- C8: the `GRUSequenceParamsCuDnn` constructor throws exactly for a
REVERSE or BIDIRECTIONAL direction, for `input_size == 1 && hidden_size ==
1`, for an activations list other than `["sigmoid", "tanh"]`, or for a
nonzero finite clip; on success the sequence-length array has `batch_size`
entries, each `max_seq_length` (sizes assumed to fit in `int32_t`). -/
theorem gru_params_ctor_errors (gp : GRUSequenceParams)
    (hb : gp.batch_size_ < 2 ^ 31) (hm : gp.max_seq_length_ < 2 ^ 31)
    (hi : gp.input_size_ < 2 ^ 31) (hh : gp.hidden_size_ < 2 ^ 31) :
    ((∃ e, GRUSequenceParamsCuDnn.construct gp = .error e) ↔
      (gp.direction_ = .REVERSE ∨ gp.direction_ = .BIDIRECTIONAL ∨
       (gp.input_size_ = 1 ∧ gp.hidden_size_ = 1) ∨
       gp.activations_ ≠ ["sigmoid", "tanh"] ∨
       (gp.clip_.isZero = false ∧ gp.clip_.isInf = false))) ∧
    (∀ p, GRUSequenceParamsCuDnn.construct gp = .ok p →
      p.seq_length_array_ =
        List.replicate gp.batch_size_ ((gp.max_seq_length_ : Int))) := by
  have ci := int32_cast_eq _ hi
  have ch := int32_cast_eq _ hh
  have cb := int32_cast_eq _ hb
  have cm := int32_cast_eq _ hm
  constructor
  · rw [construct_error_iff, ci, ch]
    norm_cast
  · intro p hok
    obtain ⟨-, -, -, -, hseq⟩ := construct_ok_fields gp p hok
    rw [hseq, cb, cm, Int.toNat_natCast]

/-- Witness for C8: the constructor rejects the REVERSE-direction input and
accepts the forward one. -/
theorem gru_params_ctor_errors_witness :
    (∃ e, GRUSequenceParamsCuDnn.construct gruParamsRevEx = .error e) ∧
    (∀ p, GRUSequenceParamsCuDnn.construct gruParamsEx = .ok p →
      p.seq_length_array_ =
        List.replicate gruParamsEx.batch_size_ ((gruParamsEx.max_seq_length_ : Int))) :=
  ⟨(gru_params_ctor_errors gruParamsRevEx (by decide) (by decide) (by decide)
      (by decide)).1.mpr (Or.inl rfl),
   (gru_params_ctor_errors gruParamsEx (by decide) (by decide) (by decide)
      (by decide)).2⟩

/-- C7: the RNN descriptor always uses the standard algorithm, GRU cell
mode, linear input mode, one layer, a null dropout descriptor and the
unidirectional direction, and the padded-IO flag is set exactly when the
configured RNN data layout is not sequence-major packed. -/
theorem rnn_descriptor_fixed_settings (gp : GRUSequenceParams)
    (p : GRUSequenceParamsCuDnn) (cfg : Config) (hs : Bool)
    (hok : GRUSequenceParamsCuDnn.construct gp = .ok p) :
    (createRNNDescriptor p cfg hs).algo = .standard ∧
    (createRNNDescriptor p cfg hs).cellMode = .gru ∧
    (createRNNDescriptor p cfg hs).inputMode = .linearInput ∧
    (createRNNDescriptor p cfg hs).numLayers = 1 ∧
    (createRNNDescriptor p cfg hs).dropoutDescIsNull = true ∧
    (createRNNDescriptor p cfg hs).dirMode = .unidirectional ∧
    ((createRNNDescriptor p cfg hs).auxFlags = CUDNN_RNN_PADDED_IO_ENABLED ↔
      cfg.rnn_data_layout ≠ .seqMajorPacked) ∧
    ((createRNNDescriptor p cfg hs).auxFlags = 0 ↔
      cfg.rnn_data_layout = .seqMajorPacked) := by
  obtain ⟨hdir, -, -, -, -⟩ := construct_ok_fields gp p hok
  refine ⟨rfl, rfl, rfl, rfl, rfl, hdir, ?_, ?_⟩ <;>
    unfold createRNNDescriptor CUDNN_RNN_PADDED_IO_ENABLED <;>
    split <;> simp_all

/-- Witness for C7 at the concrete accepted parameters. -/
theorem rnn_descriptor_fixed_settings_witness :
    ∃ p, GRUSequenceParamsCuDnn.construct gruParamsEx = .ok p ∧
      (createRNNDescriptor p { rnn_data_layout := .seqMajorUnpacked } true).algo =
        .standard ∧
      (createRNNDescriptor p { rnn_data_layout := .seqMajorUnpacked } true).dirMode =
        .unidirectional := by
  match hok : GRUSequenceParamsCuDnn.construct gruParamsEx with
  | .ok p =>
    obtain ⟨h1, h2, h3, h4, h5, h6, h7, h8⟩ :=
      rnn_descriptor_fixed_settings gruParamsEx p
        { rnn_data_layout := .seqMajorUnpacked } true hok
    exact ⟨p, rfl, h1, h6⟩
  | .error e =>
    have hd := (construct_error_iff gruParamsEx).mp ⟨e, hok⟩
    exact absurd hd (by decide)

/-- A concrete descriptor-level parameter state with float element type. -/
def paramsExFloat : GRUSequenceParamsCuDnn :=
  { element_type_ := .float, element_size_ := 4, direction_ := .unidirectional,
    linear_before_reset_ := false, batch_size_ := 2, max_seq_length_ := 3,
    input_size_ := 4, hidden_size_ := 5,
    w_host_buffers_ := List.replicate 240 0, r_host_buffers_ := List.replicate 300 0,
    b_host_buffers_ := List.replicate 80 0, seq_length_array_ := [3, 3] }

/-- A concrete descriptor-level parameter state with
`linear_before_reset = true`. -/
def paramsExLbr : GRUSequenceParamsCuDnn :=
  { paramsExFloat with linear_before_reset_ := true }

/-- C6 counterexample: with a float element type (device without half
support) the math precision equals the element type although the element
type is neither double nor half, so "the math precision equals the element
type only when the element type is double, or when it is half and the
device supports half precision" fails. -/
theorem mathPrec_only_when_counterexample :
    (createRNNDescriptor paramsExFloat { rnn_data_layout := .seqMajorUnpacked }
        false).mathPrec = paramsExFloat.element_type_ ∧
    paramsExFloat.element_type_ ≠ .double ∧
    paramsExFloat.element_type_ ≠ .half := by
  decide

/-- C6 amended: the math precision is the element type when the element
type is double, or when it is half and the device supports half precision,
and is float in every other case (hence it still coincides with the
element type when that type is float); the math type is default math
exactly when the element type is double or float, and tensor-op math
otherwise. -/
theorem mathPrec_mathType_spec (p : GRUSequenceParamsCuDnn) (cfg : Config) (hs : Bool) :
    ((createRNNDescriptor p cfg hs).mathPrec =
      if p.element_type_ = .double ∨ (p.element_type_ = .half ∧ hs = true)
      then p.element_type_ else .float) ∧
    ((createRNNDescriptor p cfg hs).mathType = .defaultMath ↔
      (p.element_type_ = .double ∨ p.element_type_ = .float)) ∧
    ((createRNNDescriptor p cfg hs).mathType = .tensorOpMath ↔
      ¬(p.element_type_ = .double ∨ p.element_type_ = .float)) := by
  refine ⟨rfl, ?_, ?_⟩ <;> unfold createRNNDescriptor <;> split <;> simp_all <;> tauto

/-- Under the unidirectional direction, the loop of `initWeightSpace` runs
for i = 0, 1, 2 and issues exactly these operations. -/
theorem initWeightSpace_eq (p : GRUSequenceParamsCuDnn) (b2_count : Nat)
    (b2_size : Nat → Nat) (hdir : p.direction_ = .unidirectional) :
    initWeightSpace p b2_count b2_size =
      [UploadAction.upload (.W 1) 0 (p.w_host_buffers_.length / 3),
       UploadAction.upload (.B1 1) 0 (p.hidden_size_.toNat * p.element_size_),
       UploadAction.upload (.R 1) 0 (p.r_host_buffers_.length / 3)] ++
      (if 0 < b2_count then [UploadAction.memset0 (.B2 1) (b2_size 1)] else []) ++
      ([UploadAction.upload (.W 0) (p.w_host_buffers_.length / 3)
          (p.w_host_buffers_.length / 3),
        UploadAction.upload (.B1 0) (p.hidden_size_.toNat * p.element_size_)
          (p.hidden_size_.toNat * p.element_size_),
        UploadAction.upload (.R 0) (p.r_host_buffers_.length / 3)
          (p.r_host_buffers_.length / 3)] ++
       (if 1 < b2_count then [UploadAction.memset0 (.B2 0) (b2_size 0)] else []) ++
       ([UploadAction.upload (.W 2) (2 * (p.w_host_buffers_.length / 3))
           (p.w_host_buffers_.length / 3),
         UploadAction.upload (.B1 2) (2 * (p.hidden_size_.toNat * p.element_size_))
           (p.hidden_size_.toNat * p.element_size_),
         UploadAction.upload (.R 2) (2 * (p.r_host_buffers_.length / 3))
           (p.r_host_buffers_.length / 3)] ++
        (if 2 < b2_count then
          (if p.linear_before_reset_ = true then
            [UploadAction.upload (.B2 2)
              ((p.hidden_size_.toNat * p.element_size_) * 3)
              (p.hidden_size_.toNat * p.element_size_)]
          else [UploadAction.memset0 (.B2 2) (b2_size 2)])
        else []))) := by
  simp [initWeightSpace, GRUSequenceParamsCuDnn.numDirections, hdir, lin_layer_count,
    gateSwap, show List.range 3 = [0, 1, 2] from rfl]

/-- C1: for each gate linear-layer index i in {0, 1, 2},
`initWeightSpace` uploads the i-th contiguous host chunk of the W weights,
the R weights and the first bias to the device buffers at index
`gateSwap i`; no W chunk goes anywhere else; `gateSwap` exchanges 0 and 1,
fixes 2, and is an involution, so the same map sends device indices back
to host gate indices. -/
theorem initWeightSpace_gate_order (p : GRUSequenceParamsCuDnn) (b2_count : Nat)
    (b2_size : Nat → Nat) (hdir : p.direction_ = .unidirectional)
    (i : Nat) (hi : i < 3) :
    (UploadAction.upload (.W (gateSwap i)) (i * (p.w_host_buffers_.length / 3))
        (p.w_host_buffers_.length / 3) ∈ initWeightSpace p b2_count b2_size) ∧
    (UploadAction.upload (.R (gateSwap i)) (i * (p.r_host_buffers_.length / 3))
        (p.r_host_buffers_.length / 3) ∈ initWeightSpace p b2_count b2_size) ∧
    (UploadAction.upload (.B1 (gateSwap i)) (i * (p.hidden_size_.toNat * p.element_size_))
        (p.hidden_size_.toNat * p.element_size_) ∈ initWeightSpace p b2_count b2_size) ∧
    (∀ j off sz, UploadAction.upload (.W j) off sz ∈ initWeightSpace p b2_count b2_size →
      ((j = gateSwap 0 ∧ off = 0 * (p.w_host_buffers_.length / 3)) ∨
       (j = gateSwap 1 ∧ off = 1 * (p.w_host_buffers_.length / 3)) ∨
       (j = gateSwap 2 ∧ off = 2 * (p.w_host_buffers_.length / 3))) ∧
      sz = p.w_host_buffers_.length / 3) ∧
    gateSwap 0 = 1 ∧ gateSwap 1 = 0 ∧ gateSwap 2 = 2 ∧
    (∀ k, gateSwap (gateSwap k) = k) := by
  have he := initWeightSpace_eq p b2_count b2_size hdir
  refine ⟨?_, ?_, ?_, ?_, rfl, rfl, rfl, ?_⟩
  · interval_cases i <;> simp [he, gateSwap]
  · interval_cases i <;> simp [he, gateSwap]
  · interval_cases i <;> simp [he, gateSwap]
  · intro j off sz h
    rw [he] at h
    split_ifs at h <;> simp [gateSwap] at h ⊢ <;> tauto
  · intro k
    by_cases h0 : k = 0
    · subst h0; rfl
    by_cases h1 : k = 1
    · subst h1; rfl
    · simp [gateSwap, h0, h1]

/-- Witness for C1: the first W host chunk lands in device buffer 1. -/
theorem initWeightSpace_gate_order_witness :
    UploadAction.upload (.W (gateSwap 0))
        (0 * (paramsExFloat.w_host_buffers_.length / 3))
        (paramsExFloat.w_host_buffers_.length / 3) ∈
      initWeightSpace paramsExFloat 3 (fun _ => 20) :=
  (initWeightSpace_gate_order paramsExFloat 3 (fun _ => 20) rfl 0 (by norm_num)).1

/-- C4: with `linear_before_reset` the descriptor uses double-bias mode and
`initWeightSpace` fills the second-bias device buffer of the hidden gate
(device index 2) from the fourth `hidden_size`-sized chunk of the host
bias buffer while zero-filling every other second-bias buffer; without
`linear_before_reset` the descriptor uses single-input-bias mode (and the
loop would zero-fill every second-bias buffer). -/
theorem linear_before_reset_bias_handling (p : GRUSequenceParamsCuDnn) (cfg : Config)
    (hs : Bool) (b2_size : Nat → Nat) (hdir : p.direction_ = .unidirectional) :
    ((createRNNDescriptor p cfg hs).biasMode =
      if p.linear_before_reset_ then .doubleBias else .singleInpBias) ∧
    (p.linear_before_reset_ = true →
      (UploadAction.upload (.B2 2) ((p.hidden_size_.toNat * p.element_size_) * 3)
          (p.hidden_size_.toNat * p.element_size_) ∈ initWeightSpace p 3 b2_size) ∧
      (UploadAction.memset0 (.B2 0) (b2_size 0) ∈ initWeightSpace p 3 b2_size) ∧
      (UploadAction.memset0 (.B2 1) (b2_size 1) ∈ initWeightSpace p 3 b2_size) ∧
      (∀ j off sz, UploadAction.upload (.B2 j) off sz ∈ initWeightSpace p 3 b2_size →
        j = 2 ∧ off = (p.hidden_size_.toNat * p.element_size_) * 3 ∧
          sz = p.hidden_size_.toNat * p.element_size_) ∧
      (∀ j sz, UploadAction.memset0 (.B2 j) sz ∈ initWeightSpace p 3 b2_size →
        (j = 0 ∨ j = 1) ∧ sz = b2_size j)) ∧
    (p.linear_before_reset_ = false →
      (createRNNDescriptor p cfg hs).biasMode = .singleInpBias ∧
      (∀ j off sz, UploadAction.upload (.B2 j) off sz ∉ initWeightSpace p 3 b2_size) ∧
      (∀ j, j < 3 → UploadAction.memset0 (.B2 j) (b2_size j) ∈ initWeightSpace p 3 b2_size)) := by
  have he := initWeightSpace_eq p 3 b2_size hdir
  refine ⟨rfl, fun hl => ?_, fun hl => ?_⟩
  · rw [he]
    refine ⟨by simp [hl], by simp, by simp, ?_, ?_⟩
    · intro j off sz h
      simp [hl] at h
      exact h
    · intro j sz h
      simp [hl] at h
      rcases h with ⟨h1, h2⟩ | ⟨h1, h2⟩ <;> subst h1 <;> exact ⟨by tauto, h2⟩
  · refine ⟨by simp [createRNNDescriptor, hl], ?_, ?_⟩
    · intro j off sz h
      rw [he] at h
      simp [hl] at h
    · intro j hj
      rw [he]
      interval_cases j <;> simp [hl]

/-- Witness for C4 at the concrete `linear_before_reset` parameters. -/
theorem linear_before_reset_bias_handling_witness :
    (createRNNDescriptor paramsExLbr { rnn_data_layout := .seqMajorUnpacked }
        false).biasMode =
      (if paramsExLbr.linear_before_reset_ then .doubleBias else .singleInpBias) ∧
    UploadAction.upload (.B2 2)
        ((paramsExLbr.hidden_size_.toNat * paramsExLbr.element_size_) * 3)
        (paramsExLbr.hidden_size_.toNat * paramsExLbr.element_size_) ∈
      initWeightSpace paramsExLbr 3 (fun _ => 20) := by
  obtain ⟨h1, h2, h3⟩ := linear_before_reset_bias_handling paramsExLbr
    { rnn_data_layout := .seqMajorUnpacked } false (fun _ => 20) rfl
  exact ⟨h1, (h2 rfl).1⟩

/-! `GRUSequenceDescriptorsCuDnn::weightBuffersFit`.  Device pointers are
embedded as natural-number addresses, so an element of `DevBuffers` (a
`Span<uint8_t>`: `data()` plus `size_bytes()`) becomes an address-size
pair. -/

/-- One device buffer: start address (`data()`) and size in bytes
(`size_bytes()`). -/
abbrev DevBuffer := Nat × Nat

/-- The comparator `a.data() < b.data()` orders buffers by start address;
sortedness is expressed through the reflexive closure of that order. -/
def bufferLE (a b : DevBuffer) : Prop := a.1 ≤ b.1

instance : DecidableRel bufferLE := fun a b => Nat.decLe a.1 b.1

instance : IsTotal DevBuffer bufferLE := ⟨fun a b => Nat.le_total a.1 b.1⟩

instance : IsTrans DevBuffer bufferLE := ⟨fun _ _ _ => Nat.le_trans⟩

/-- The final loop of `weightBuffersFit`: for each adjacent pair of the
sorted list, `if (addr_a + size_a > addr_b) return false;`. -/
def adjacentFit : List DevBuffer → Bool
  | a :: b :: rest => decide (a.1 + a.2 ≤ b.1) && adjacentFit (b :: rest)
  | _ => true

/-- The three checks of `weightBuffersFit` applied to the sorted
`all_weights` list: the first start address not below the weight space
base, the last buffer ending inside the weight space, and no adjacent
overlap.  (On an empty list the C++ would index `all_weights[0]`; that
case is unreachable, the buffer vectors being non-empty.) -/
def fitChecks (buffer wss : Nat) : List DevBuffer → Bool
  | [] => true
  | first :: rest =>
    if first.1 < buffer then false
    else if ((first :: rest).getLast (List.cons_ne_nil _ _)).1 +
        ((first :: rest).getLast (List.cons_ne_nil _ _)).2 > buffer + wss then false
    else adjacentFit (first :: rest)

/-- `GRUSequenceDescriptorsCuDnn::weightBuffersFit` for base address
`buffer` and `weightSpaceSize() = wss`: concatenate the four device-buffer
vectors, sort by start address and run the three checks.  (`std::sort`
with the strict comparator leaves the relative order of equal start
addresses unspecified; insertion sort fixes one of the permitted
outcomes.) -/
def weightBuffersFit (buffer wss : Nat)
    (w_dev_buffers_ r_dev_buffers_ b1_dev_buffers_ b2_dev_buffers_ : List DevBuffer) :
    Bool :=
  let all_weights :=
    w_dev_buffers_ ++ r_dev_buffers_ ++ b1_dev_buffers_ ++ b2_dev_buffers_
  fitChecks buffer wss (all_weights.insertionSort bufferLE)

/-- Address `x` is occupied by buffer `b`. -/
def occupies (b : DevBuffer) (x : Nat) : Prop := b.1 ≤ x ∧ x < b.1 + b.2

/-- The buffer lies entirely inside the half-open range
`[buffer, buffer + wss)`. -/
def insideRange (buffer wss : Nat) (b : DevBuffer) : Prop :=
  ∀ x, occupies b x → buffer ≤ x ∧ x < buffer + wss

/-- Two buffers overlap when some address is occupied by both. -/
def buffersOverlap (a b : DevBuffer) : Prop :=
  ∃ x, occupies a x ∧ occupies b x

/-- The property claimed for `weightBuffersFit`: every buffer lies
entirely inside `[buffer, buffer + wss)` and no two buffers overlap. -/
def containedAndDisjoint (buffer wss : Nat) (l : List DevBuffer) : Prop :=
  (∀ b ∈ l, insideRange buffer wss b) ∧
  l.Pairwise (fun a b => ¬buffersOverlap a b)

/-- Arithmetic rendering of non-overlap: one buffer ends before the other
starts. -/
def buffersDisjointA (a b : DevBuffer) : Prop :=
  a.1 + a.2 ≤ b.1 ∨ b.1 + b.2 ≤ a.1

/-- Arithmetic rendering of `containedAndDisjoint`. -/
def containedAndDisjointA (buffer wss : Nat) (l : List DevBuffer) : Prop :=
  (∀ b ∈ l, buffer ≤ b.1 ∧ b.1 + b.2 ≤ buffer + wss) ∧
  l.Pairwise buffersDisjointA

/-- The adjacent-pair relation checked by the loop. -/
def endBeforeStart (a b : DevBuffer) : Prop := a.1 + a.2 ≤ b.1

instance : IsTrans DevBuffer endBeforeStart :=
  ⟨fun _ b _ hab hbc => le_trans hab (le_trans (Nat.le_add_right b.1 b.2) hbc)⟩

/-- `adjacentFit` decides the chain of adjacent non-overlaps. -/
theorem adjacentFit_iff : ∀ l : List DevBuffer,
    (adjacentFit l = true ↔ List.Chain' endBeforeStart l)
  | [] => by simp [adjacentFit]
  | [a] => by simp [adjacentFit]
  | a :: b :: rest => by
    rw [show adjacentFit (a :: b :: rest) =
        (decide (a.1 + a.2 ≤ b.1) && adjacentFit (b :: rest)) from rfl,
      Bool.and_eq_true, decide_eq_true_iff, adjacentFit_iff (b :: rest),
      List.chain'_cons]
    exact Iff.rfl

/-- Passing the three checks forces full containment and pairwise
disjointness (in arithmetic form); no size positivity is needed for this
direction. -/
theorem fitChecks_implies (buffer wss : Nat) (l : List DevBuffer)
    (hfit : fitChecks buffer wss l = true) :
    containedAndDisjointA buffer wss l := by
  cases l with
  | nil => exact ⟨by simp, by simp⟩
  | cons first rest =>
    simp only [fitChecks] at hfit
    by_cases h1 : first.1 < buffer
    · rw [if_pos h1] at hfit; exact absurd hfit (by simp)
    rw [if_neg h1] at hfit
    by_cases h2 : ((first :: rest).getLast (List.cons_ne_nil _ _)).1 +
        ((first :: rest).getLast (List.cons_ne_nil _ _)).2 > buffer + wss
    · rw [if_pos h2] at hfit; exact absurd hfit (by simp)
    rw [if_neg h2] at hfit
    have hpw : (first :: rest).Pairwise endBeforeStart :=
      List.chain'_iff_pairwise.mp ((adjacentFit_iff _).mp hfit)
    push_neg at h1 h2
    constructor
    · intro b hb
      constructor
      · rcases List.mem_cons.mp hb with hb' | hb'
        · subst hb'; exact h1
        · have hR := (List.pairwise_cons.mp hpw).1 b hb'
          simp only [endBeforeStart] at hR
          omega
      · have hne : (first :: rest) ≠ [] := List.cons_ne_nil _ _
        have hsplit := List.dropLast_append_getLast hne
        by_cases hbl : b = (first :: rest).getLast hne
        · subst hbl; exact h2
        · have hb' : b ∈ (first :: rest).dropLast ++
              [(first :: rest).getLast hne] := by rw [hsplit]; exact hb
          have hbdl : b ∈ (first :: rest).dropLast := by
            rcases List.mem_append.mp hb' with h | h
            · exact h
            · exact absurd (List.mem_singleton.mp h) hbl
          have hpw2 : ((first :: rest).dropLast ++
              [(first :: rest).getLast hne]).Pairwise endBeforeStart := by
            rw [hsplit]; exact hpw
          have hR := (List.pairwise_append.mp hpw2).2.2 b hbdl _
            (List.mem_singleton_self _)
          simp only [endBeforeStart] at hR
          omega
    · exact hpw.imp (fun h => Or.inl h)

/-- For a list sorted by start address whose buffers have positive sizes,
containment and pairwise disjointness make all three checks pass. -/
theorem fitChecks_of (buffer wss : Nat) (l : List DevBuffer)
    (hsorted : l.Sorted bufferLE) (hpos : ∀ b ∈ l, 0 < b.2)
    (hcd : containedAndDisjointA buffer wss l) :
    fitChecks buffer wss l = true := by
  cases l with
  | nil => rfl
  | cons first rest =>
    obtain ⟨hin, hdis⟩ := hcd
    simp only [fitChecks]
    have h1 : ¬first.1 < buffer :=
      not_lt.mpr (hin first (List.mem_cons_self _ _)).1
    rw [if_neg h1]
    have hlastmem := List.getLast_mem (List.cons_ne_nil first rest)
    have h2 : ¬(((first :: rest).getLast (List.cons_ne_nil _ _)).1 +
        ((first :: rest).getLast (List.cons_ne_nil _ _)).2 > buffer + wss) :=
      not_lt.mpr (hin _ hlastmem).2
    rw [if_neg h2]
    have hpwE : (first :: rest).Pairwise endBeforeStart := by
      refine (List.Pairwise.and hsorted hdis).imp_of_mem ?_
      intro a b ha hb hco
      obtain ⟨hab, hd⟩ := hco
      simp only [bufferLE] at hab
      simp only [buffersDisjointA] at hd
      simp only [endBeforeStart]
      have hbpos := hpos b hb
      omega
    exact (adjacentFit_iff _).mpr (List.chain'_iff_pairwise.mpr hpwE)

/-- With positive sizes the arithmetic and the address-set readings of
containment plus disjointness agree. -/
theorem containedAndDisjointA_iff (buffer wss : Nat) (l : List DevBuffer)
    (hpos : ∀ b ∈ l, 0 < b.2) :
    containedAndDisjointA buffer wss l ↔ containedAndDisjoint buffer wss l := by
  constructor
  · rintro ⟨hin, hdis⟩
    constructor
    · intro b hb x hx
      have h := hin b hb
      simp only [occupies] at hx
      omega
    · refine hdis.imp_of_mem ?_
      intro a b ha hb hd
      rintro ⟨x, hxa, hxb⟩
      simp only [occupies] at hxa hxb
      simp only [buffersDisjointA] at hd
      rcases hd with hd | hd <;> omega
  · rintro ⟨hin, hdis⟩
    constructor
    · intro b hb
      have hb2 := hpos b hb
      have hx1 := hin b hb b.1 ⟨le_refl _, by omega⟩
      have hx2 := hin b hb (b.1 + b.2 - 1) ⟨by omega, by omega⟩
      omega
    · refine hdis.imp_of_mem ?_
      intro a b ha hb hd
      have ha2 := hpos a ha
      have hb2 := hpos b hb
      simp only [buffersDisjointA]
      by_contra hcon
      push_neg at hcon
      obtain ⟨hc1, hc2⟩ := hcon
      by_cases hab : a.1 ≤ b.1
      · exact hd ⟨b.1, ⟨hab, by omega⟩, ⟨le_refl _, by omega⟩⟩
      · exact hd ⟨a.1, ⟨le_refl _, by omega⟩, ⟨by omega, by omega⟩⟩

/-- C9 counterexample: with a zero-sized buffer lying strictly inside
another buffer, every buffer is contained in the weight space and no two
buffers overlap (a zero-sized buffer occupies no address), yet
`weightBuffersFit` returns false, because after sorting the adjacent-pair
check compares the enclosing buffer's end against the zero-sized buffer's
start.  So the claimed equivalence fails for arbitrary buffer
collections. -/
theorem weightBuffersFit_counterexample :
    weightBuffersFit 0 100 [(0, 10)] [(5, 0)] [] [] = false ∧
    ([(0, 10)] ++ [(5, 0)] ++ [] ++ [] : List DevBuffer) ≠ [] ∧
    containedAndDisjoint 0 100 ([(0, 10)] ++ [(5, 0)] ++ [] ++ []) := by
  refine ⟨by decide, by decide, ?_, ?_⟩
  · intro b hb x hx
    simp only [List.mem_append, List.mem_singleton, List.not_mem_nil, or_false] at hb
    simp only [occupies] at hx
    rcases hb with hb | hb <;> subst hb <;> simp_all <;> omega
  · refine List.Pairwise.cons ?_ (List.pairwise_singleton _ _)
    intro b hb
    simp at hb
    subst hb
    rintro ⟨x, hxa, hxb⟩
    simp only [occupies] at hxa hxb
    omega

/-- C9 amended: for a non-empty collection of W, R, first-bias and
second-bias device buffers all of positive size (as the real weight
buffers are), `weightBuffersFit` returns true if and only if every buffer
lies entirely inside the half-open range `[buffer, buffer + wss)` and no
two buffers overlap; in particular the adjacent-pair check after sorting
by start address suffices for pairwise disjointness and containment of
the middle buffers.  (For zero-sized buffers the equivalence can fail,
see the counterexample.) -/
theorem weightBuffersFit_iff (buffer wss : Nat) (w r b1 b2 : List DevBuffer)
    (hne : w ++ r ++ b1 ++ b2 ≠ [])
    (hpos : ∀ b ∈ w ++ r ++ b1 ++ b2, 0 < b.2) :
    weightBuffersFit buffer wss w r b1 b2 = true ↔
      containedAndDisjoint buffer wss (w ++ r ++ b1 ++ b2) := by
  have hperm : ((w ++ r ++ b1 ++ b2).insertionSort bufferLE).Perm
      (w ++ r ++ b1 ++ b2) := List.perm_insertionSort _ _
  have hsorted := List.sorted_insertionSort bufferLE (w ++ r ++ b1 ++ b2)
  have hposS : ∀ b ∈ (w ++ r ++ b1 ++ b2).insertionSort bufferLE, 0 < b.2 :=
    fun b hb => hpos b (hperm.mem_iff.mp hb)
  have hpairs : ((w ++ r ++ b1 ++ b2).insertionSort bufferLE).Pairwise
        buffersDisjointA ↔ (w ++ r ++ b1 ++ b2).Pairwise buffersDisjointA :=
    List.Perm.pairwise_iff (fun h => h.symm) hperm
  constructor
  · intro hfit
    have hfit' : fitChecks buffer wss
        ((w ++ r ++ b1 ++ b2).insertionSort bufferLE) = true := hfit
    have hA := fitChecks_implies buffer wss _ hfit'
    have hAL : containedAndDisjointA buffer wss (w ++ r ++ b1 ++ b2) :=
      ⟨fun b hb => hA.1 b (hperm.mem_iff.mpr hb), hpairs.mp hA.2⟩
    exact (containedAndDisjointA_iff _ _ _ hpos).mp hAL
  · intro hcd
    have hAL := (containedAndDisjointA_iff _ _ _ hpos).mpr hcd
    have hAS : containedAndDisjointA buffer wss
        ((w ++ r ++ b1 ++ b2).insertionSort bufferLE) :=
      ⟨fun b hb => hAL.1 b (hperm.mem_iff.mp hb), hpairs.mpr hAL.2⟩
    show fitChecks buffer wss
        ((w ++ r ++ b1 ++ b2).insertionSort bufferLE) = true
    exact fitChecks_of buffer wss _ hsorted hposS hAS

/-- Witness for the amended C9 at a concrete positive-size layout. -/
theorem weightBuffersFit_iff_witness :
    containedAndDisjoint 0 100
      ([(0, 10)] ++ [(20, 10)] ++ [(40, 10)] ++ [(60, 10)]) :=
  (weightBuffersFit_iff 0 100 [(0, 10)] [(20, 10)] [(40, 10)] [(60, 10)]
    (by decide) (by decide)).mp (by decide)

end RNN

end CUDAPlugin
